import Mathlib

/-!
Verification of the tile-streaming core of the `123456CJ/cesium` repository
(`src/Source/Scene/ImageryLayer.js`, which bundles the `ImageryLayer`,
`TileReplacementQueue` and `Tile` modules).

The JavaScript code is shallowly embedded: every stateful method becomes a
pure Lean function on an explicit state record, JavaScript numbers used as
counters become `Int`/`Nat` (with the `undefined`/`NaN` behaviour of the
per-host request counters modelled explicitly), and the real-valued geometry
(texel spacing, extents, texture transforms) is idealised over `ℝ`.
External collaborators (tiling schemes, the DOM anchor used to parse
hostnames, the imagery provider) are parameters of the embedding, exactly as
they are duck-typed collaborators in the source.
-/

namespace Cesium

/-- Tile/binding lifecycle states (`Scene/TileState.js` values used by the
embedded modules). -/
inductive TileState where
  | UNLOADED
  | RECEIVED
  | TRANSFORMING
  | TRANSITIONING
  | READY
  | FAILED
  | INVALID
deriving DecidableEq, Repr

/-! ## TileReplacementQueue

The source keeps an intrusive doubly linked list (`_replacementPrevious` /
`_replacementNext` fields on the tiles) together with a separately maintained
`count` field and the `_lastBeforeStartOfFrame` marker.  The embedding
represents the linked structure as the head-first list `tiles` of tile
identifiers; `_replacementPrevious` of `t` is the element immediately before
`t` in that list and `_replacementNext` the element immediately after, and
"`t`'s prev/next pointers are undefined" corresponds to `t` not being linked.
`count` is kept as a separate field, as in the source, so that the invariant
"count equals the number of linked nodes" is a real statement. -/

structure TileReplacementQueue where
  tiles : List Nat
  count : Nat
  lastBeforeStartOfFrame : Option Nat
deriving DecidableEq, Repr

namespace TileReplacementQueue

/-- The empty queue produced by the `TileReplacementQueue` constructor. -/
def empty : TileReplacementQueue := ⟨[], 0, none⟩

/-- The element immediately after `t` in the list: `t._replacementNext`. -/
def nextOf (l : List Nat) (t : Nat) : Option Nat :=
  match l with
  | [] => none
  | a :: rest => if a = t then rest.head? else nextOf rest t

/-- The element immediately before `t` in the list: `t._replacementPrevious`. -/
def prevOf (l : List Nat) (t : Nat) : Option Nat :=
  match l with
  | [] => none
  | [_] => none
  | a :: b :: rest => if b = t then some a else prevOf (b :: rest) t

/-- `TileReplacementQueue.prototype.markStartOfRenderFrame` (source line
354-356): snapshot the current head. -/
def markStartOfRenderFrame (q : TileReplacementQueue) : TileReplacementQueue :=
  { q with lastBeforeStartOfFrame := q.tiles.head? }

/-- `TileReplacementQueue.prototype._remove` (source lines 378-402): advance
the marker past `item` if necessary, splice `item` out of the linked list and
decrement `count`. -/
def remove (q : TileReplacementQueue) (item : Nat) : TileReplacementQueue :=
  { tiles := q.tiles.erase item
    count := q.count - 1
    lastBeforeStartOfFrame :=
      if q.lastBeforeStartOfFrame = some item then nextOf q.tiles item
      else q.lastBeforeStartOfFrame }

/-- `TileReplacementQueue.prototype.markTileRendered` (source lines 404-456).
The source detects "tile already in the list" by its prev/next pointers being
defined; for a non-head tile of a non-empty linked list that is exactly list
membership.  The source's final insertion branch with an undefined
`insertionPoint` (lines 429-442) is unreachable because `insertionPoint` is
the head, which was checked non-empty. -/
def markTileRendered (q : TileReplacementQueue) (item : Nat) : TileReplacementQueue :=
  if q.tiles.head? = some item then
    -- head re-touched: possibly advance the marker, nothing else changes
    if q.lastBeforeStartOfFrame = some item then
      { q with lastBeforeStartOfFrame := nextOf q.tiles item }
    else q
  else
    let q1 : TileReplacementQueue := { q with count := q.count + 1 }
    match q1.tiles with
    | [] => { q1 with tiles := [item] }
    | _ :: _ =>
      let q2 := if item ∈ q1.tiles then q1.remove item else q1
      { q2 with tiles := item :: q2.tiles }

/-- Fold a sequence of `markTileRendered` calls over the empty queue. -/
def runMarks (ms : List Nat) : TileReplacementQueue :=
  ms.foldl markTileRendered empty

/-- The tiles visited by `Tile.prototype.freeResources` started at `t`: the
tile itself and, recursively, its children (source lines 813-817).
`children` is the tile tree (each tile's `children` array, empty when not yet
materialised); `fuel` bounds the recursion depth - the source recursion is
over the finite quadtree, so any fuel at least the tree's height computes the
same set. -/
def subtreeList (children : Nat → List Nat) : Nat → Nat → List Nat
  | 0, t => [t]
  | fuel + 1, t => t :: (children t).flatMap (subtreeList children fuel)

/-- `Tile.prototype.freeResources` (source lines 777-818): releases the
tile's geometry, buffers and overlay bindings, forces its state back to
UNLOADED, and recurses into its children.  Each visited tile receives the
same constant update (state := UNLOADED, payload released), so the net
effect on the state map is a pointwise update over the visited subtree; the
returned list records every tile whose payload was released. -/
def freeResources (children : Nat → List Nat) (fuel : Nat)
    (states : Nat → TileState) (t : Nat) : (Nat → TileState) × List Nat :=
  (fun n => if n ∈ subtreeList children fuel t then TileState.UNLOADED else states n,
   subtreeList children fuel t)

/-- Result of a `trimTiles` run: the final queue, the final tile states,
the list of candidates the loop called `freeResources` on and unlinked
(`trimmed`), and the list of every tile whose payload `freeResources`
released - the trimmed candidates and their descendants (`released`). -/
structure TrimResult where
  queue : TileReplacementQueue
  states : Nat → TileState
  trimmed : List Nat
  released : List Nat

/-- The loop body of `TileReplacementQueue.prototype.trimTiles` (source lines
358-376), with an explicit fuel so that the `while` loop is a Lean function.
Each iteration checks the `while` condition (marker defined, `count >
maxTiles`, candidate defined), computes `keepTrimming` *before* processing
the candidate - so the marker tile itself is still processed - records the
candidate's `_replacementPrevious`, and, unless the candidate's *current*
state is TRANSITIONING, calls `freeResources` on it (which recurses into its
children) and unlinks it. -/
def trimLoop (children : Nat → List Nat) (treeFuel : Nat) (fuel : Nat)
    (states : Nat → TileState) (q : TileReplacementQueue) (maxTiles : Nat)
    (tileToTrim : Option Nat) (trimmed released : List Nat) : TrimResult :=
  match fuel with
  | 0 => ⟨q, states, trimmed, released⟩
  | fuel + 1 =>
    match q.lastBeforeStartOfFrame, tileToTrim with
    | some _, some t =>
      if q.count > maxTiles then
        -- stop trimming after we process the last tile not used this frame
        let keepTrimming := some t ≠ q.lastBeforeStartOfFrame
        let previous := prevOf q.tiles t
        let step : TileReplacementQueue × (Nat → TileState) × List Nat × List Nat :=
          if states t ≠ TileState.TRANSITIONING then
            let fr := freeResources children treeFuel states t
            (q.remove t, fr.1, trimmed ++ [t], released ++ fr.2)
          else (q, states, trimmed, released)
        if keepTrimming then
          trimLoop children treeFuel fuel step.2.1 step.1 maxTiles previous
            step.2.2.1 step.2.2.2
        else ⟨step.1, step.2.1, step.2.2.1, step.2.2.2⟩
      else ⟨q, states, trimmed, released⟩
    | _, _ => ⟨q, states, trimmed, released⟩

/-- `TileReplacementQueue.prototype.trimTiles`: run the trim loop from the
tail.  The fuel `q.tiles.length + 1` dominates the number of loop iterations,
which walks strictly toward the head; `treeFuel` bounds the depth of the
`freeResources` child recursion. -/
def trimTiles (children : Nat → List Nat) (treeFuel : Nat)
    (states : Nat → TileState) (q : TileReplacementQueue)
    (maxTiles : Nat) : TrimResult :=
  trimLoop children treeFuel (q.tiles.length + 1) states q maxTiles
    q.tiles.getLast? [] []

/-- The invariant carried through the `trimLoop` walk, relative to the suffix
`cur` of the linked list the walk is confined to and to the accumulators:
candidates are trimmed only out of `cur` (or were already in the
accumulator); no linked tile is lost; the accumulators only grow; payload is
released exactly for the subtrees of trimmed candidates; states outside the
released set are untouched; every trimmed candidate has its payload
released; and a trimmed candidate was non-TRANSITIONING at this point unless
it was already released (reset by an earlier candidate's child recursion). -/
def TrimLoopInv (children : Nat → List Nat) (treeFuel : Nat)
    (states : Nat → TileState) (q : TileReplacementQueue)
    (trimmedAcc releasedAcc cur : List Nat) (r : TrimResult) : Prop :=
  (∀ t ∈ r.trimmed, t ∈ trimmedAcc ∨ t ∈ cur) ∧
  (∀ x ∈ q.tiles, x ∈ r.queue.tiles ∨ x ∈ r.trimmed) ∧
  (∀ y ∈ trimmedAcc, y ∈ r.trimmed) ∧
  (∀ y ∈ releasedAcc, y ∈ r.released) ∧
  (∀ t ∈ r.released, t ∈ releasedAcc ∨
    ∃ u ∈ r.trimmed, t ∈ subtreeList children treeFuel u) ∧
  (∀ x, x ∉ r.released → r.states x = states x) ∧
  (∀ t ∈ r.trimmed, t ∈ trimmedAcc ∨ t ∈ r.released) ∧
  (∀ t ∈ r.trimmed, t ∉ trimmedAcc →
    states t ≠ TileState.TRANSITIONING ∨ t ∈ releasedAcc ∨
    ∃ u ∈ r.trimmed, u ≠ t ∧ t ∈ subtreeList children treeFuel u)

end TileReplacementQueue

/-! ## ImageryLayer - fetch, cache and per-host admission control

`ImageryLayer.prototype.requestImagery` (source lines 215-274) runs a promise
chain: a first callback that performs the cache lookup and admission control
and either defers or issues the fetch, a fulfilment handler and a rejection
handler.  The module-level `activeTileImageRequests` object maps hostnames to
JavaScript numbers; reading a missing property yields `undefined`, and the
`--` operator turns `undefined` (and `NaN`) into `NaN`.  `JNum` models
exactly those values. -/

/-- A JavaScript number as stored in `activeTileImageRequests[hostname]`:
either the property is absent (`undef`), or it holds `NaN`, or an integer. -/
inductive JNum where
  | undef
  | nan
  | int (n : Int)
deriving DecidableEq, Repr

namespace JNum

/-- `defaultValue(v, 0)` (source line 234): `undefined` becomes `0`. -/
def orZero : JNum → JNum
  | undef => int 0
  | nan => nan
  | int n => int n

/-- The JavaScript comparison `v > m`: comparisons against `undefined` or
`NaN` are false. -/
def gtInt : JNum → Int → Bool
  | undef, _ => false
  | nan, _ => false
  | int n, m => n > m

/-- `v + 1` on a JavaScript number (source line 245). -/
def add1 : JNum → JNum
  | undef => nan
  | nan => nan
  | int n => int (n + 1)

/-- The `--` operator (source line 257): `undefined--` stores `NaN`. -/
def sub1 : JNum → JNum
  | undef => nan
  | nan => nan
  | int n => int (n - 1)

end JNum

/-- Modelled from the spec: the content-addressed `ImageryCache`
(`Scene/ImageryCache.js` is not under `src/`; only its call sites are).  Per
spec section 4.3 it is keyed by resolved image URL; `get` looks an entry up,
`beginAdd` marks an entry as pending (present without a texture), and
`abortAdd` removes the pending entry so a future request can retry fresh.
An entry is a record whose only relevant field is its optional texture. -/
structure ImageryCacheM where
  entries : List (String × Option Nat)
deriving DecidableEq, Repr

namespace ImageryCacheM

/-- The empty cache. -/
def emptyCache : ImageryCacheM := ⟨[]⟩

/-- Modelled from the spec: `ImageryCache.get(url)` - `none` is a cache miss,
`some none` a pending entry, `some (some t)` an entry with texture `t`. -/
def get (c : ImageryCacheM) (url : String) : Option (Option Nat) :=
  (c.entries.find? (fun p => p.1 = url)).map (fun p => p.2)

/-- Modelled from the spec: `ImageryCache.beginAdd(url)` marks the entry as
pending. -/
def beginAdd (c : ImageryCacheM) (url : String) : ImageryCacheM :=
  ⟨(url, none) :: c.entries⟩

/-- Modelled from the spec: `ImageryCache.abortAdd(url)` removes the entry.
`requestImagery` passes `tileImagery.imageUrl`, which is only set once a
fetch is issued; an unset URL removes nothing. -/
def abortAdd (c : ImageryCacheM) (url : Option String) : ImageryCacheM :=
  match url with
  | some u => ⟨c.entries.eraseP (fun p => p.1 = u)⟩
  | none => c

end ImageryCacheM

/-- The fields of a `TileImagery` binding touched by `requestImagery`.
(`Scene/TileImagery.js` is not under `src/`; a fresh binding starts in the
UNLOADED state per the spec's state machine, with no texture, image or URL.) -/
structure TileImageryM where
  state : TileState
  texture : Option Nat
  image : Option Nat
  imageUrl : Option String
deriving DecidableEq, Repr

/-- A fresh overlay binding. -/
def TileImageryM.fresh : TileImageryM := ⟨TileState.UNLOADED, none, none, none⟩

/-- Result of the first `requestImagery` callback: the updated cache and
per-host counters, the updated binding, and whether a fetch was issued
(`issued = false` corresponds to the callback returning `false`). -/
structure StartResult where
  cache : ImageryCacheM
  active : String → JNum
  binding : TileImageryM
  issued : Bool

/-- The first callback of `ImageryLayer.prototype.requestImagery` (source
lines 220-251): cache lookup, per-host admission control, `beginAdd` and
fetch issue.  `getHostname` abstracts the DOM-anchor hostname parser of
source lines 289-296, and `active` is `activeTileImageRequests`. -/
def requestImageryStart (getHostname : String → String) (cache : ImageryCacheM)
    (active : String → JNum) (b : TileImageryM) (imageUrl : String) : StartResult :=
  match cache.get imageUrl with
  | some item =>
    match item with
    | none => ⟨cache, active, { b with state := TileState.UNLOADED }, false⟩
    | some tex => ⟨cache, active, { b with texture := some tex, state := TileState.READY }, false⟩
  | none =>
    let hostname := getHostname imageUrl
    if hostname ≠ "" then
      let activeRequestsForHostname := (active hostname).orZero
      -- cap image requests per hostname (source line 239): defer when the
      -- count exceeds 6
      if activeRequestsForHostname.gtInt 6 then
        ⟨cache, active, { b with state := TileState.UNLOADED }, false⟩
      else
        let active' := fun h => if h = hostname then activeRequestsForHostname.add1 else active h
        ⟨cache.beginAdd imageUrl, active',
          { b with imageUrl := some imageUrl }, true⟩
    else
      ⟨cache.beginAdd imageUrl, active, { b with imageUrl := some imageUrl }, true⟩

/-- The value delivered to the fulfilment handler: the first callback's
`false` when no fetch was issued, otherwise the decoded image of
`requestImage` (`none` models a recognized-but-empty response). -/
inductive FetchValue where
  | boolResult (b : Bool)
  | imageResult (img : Option Nat)
deriving DecidableEq, Repr

/-- Result of a completion handler. -/
structure DoneResult where
  cache : ImageryCacheM
  active : String → JNum
  binding : TileImageryM

/-- The fulfilment handler of `requestImagery` (source lines 252-267):
early-return on a boolean, decrement the host counter, attach the image, and
either mark RECEIVED or - for an empty response - mark INVALID and abort the
pending cache entry.  `hostname` is the closure variable captured by the
first callback. -/
def requestImageryOnSuccess (hostname : String) (cache : ImageryCacheM)
    (active : String → JNum) (b : TileImageryM) (v : FetchValue) : DoneResult :=
  match v with
  | FetchValue.boolResult _ => ⟨cache, active, b⟩
  | FetchValue.imageResult img =>
    let active' := fun h => if h = hostname then (active h).sub1 else active h
    let b' := { b with image := img }
    match img with
    | none => ⟨cache.abortAdd b'.imageUrl, active', { b' with state := TileState.INVALID }⟩
    | some _ => ⟨cache, active', { b' with state := TileState.RECEIVED }⟩

/-- The rejection handler of `requestImagery` (source lines 268-273): log,
mark FAILED and abort the pending cache entry.  Note that the host counter is
*not* decremented on this path. -/
def requestImageryOnFailure (cache : ImageryCacheM) (active : String → JNum)
    (b : TileImageryM) : DoneResult :=
  ⟨cache.abortAdd b.imageUrl, active, { b with state := TileState.FAILED }⟩

/-! ### A driver for sequences of requests

The driver fires the callbacks above in an arbitrary interleaving: an
`attempt` runs the first callback on a fresh binding, and a completion event
runs the fulfilment or rejection handler of a previously issued,
not-yet-completed fetch (completion order need not match issue order).
`openReqs` tracks the issued-but-uncompleted fetches and `failedCount` the
completed-with-failure ones; both are bookkeeping of the driver, not of the
source. -/

/-- One asynchronous event in a `requestImagery` workload. -/
inductive ReqEvent where
  | attempt (url : String)
  | finishImage (url : String) (img : Nat)
  | finishEmpty (url : String)
  | fail (url : String)
deriving DecidableEq, Repr

/-- Driver state. -/
structure ReqRunState where
  cache : ImageryCacheM
  active : String → JNum
  bindings : List (String × TileImageryM)
  openReqs : List String
  failedCount : Nat

/-- The latest binding recorded for a URL. -/
def lookupBinding (l : List (String × TileImageryM)) (url : String) : TileImageryM :=
  ((l.find? (fun p => p.1 = url)).map (fun p => p.2)).getD TileImageryM.fresh

/-- The initial driver state: empty cache, no counters, nothing in flight. -/
def ReqRunState.initial : ReqRunState :=
  ⟨ImageryCacheM.emptyCache, fun _ => JNum.undef, [], [], 0⟩

/-- Fire one event.  Completion events for URLs that are not in flight are
ignored (no such continuation exists). -/
def stepReq (getHostname : String → String) (s : ReqRunState) (e : ReqEvent) : ReqRunState :=
  match e with
  | ReqEvent.attempt url =>
    let r := requestImageryStart getHostname s.cache s.active TileImageryM.fresh url
    { cache := r.cache, active := r.active,
      bindings := (url, r.binding) :: s.bindings,
      openReqs := if r.issued then url :: s.openReqs else s.openReqs,
      failedCount := s.failedCount }
  | ReqEvent.finishImage url img =>
    if url ∈ s.openReqs then
      let r := requestImageryOnSuccess (getHostname url) s.cache s.active
        (lookupBinding s.bindings url) (FetchValue.imageResult (some img))
      { cache := r.cache, active := r.active,
        bindings := (url, r.binding) :: s.bindings,
        openReqs := s.openReqs.erase url, failedCount := s.failedCount }
    else s
  | ReqEvent.finishEmpty url =>
    if url ∈ s.openReqs then
      let r := requestImageryOnSuccess (getHostname url) s.cache s.active
        (lookupBinding s.bindings url) (FetchValue.imageResult none)
      { cache := r.cache, active := r.active,
        bindings := (url, r.binding) :: s.bindings,
        openReqs := s.openReqs.erase url, failedCount := s.failedCount }
    else s
  | ReqEvent.fail url =>
    if url ∈ s.openReqs then
      let r := requestImageryOnFailure s.cache s.active (lookupBinding s.bindings url)
      { cache := r.cache, active := r.active,
        bindings := (url, r.binding) :: s.bindings,
        openReqs := s.openReqs.erase url, failedCount := s.failedCount + 1 }
    else s

/-- Run a workload from the initial state. -/
def runReq (getHostname : String → String) (events : List ReqEvent) : ReqRunState :=
  events.foldl (stepReq getHostname) ReqRunState.initial

/-! ## ImageryLayer - LOD selection and imagery-to-terrain alignment

The geometry is idealised over `ℝ`.  A geographic or native extent is the
record of its west/south/east/north bounds. -/

/-- An extent (`Core/Extent.js` object shape). -/
structure Extent where
  west : ℝ
  south : ℝ
  east : ℝ
  north : ℝ

/-- Modelled from the spec: `Extent.prototype.intersectWith`
(`Core/Extent.js` is not under `src/`).  Per spec section 4.2 the
intersection of two extents is the componentwise max of the wests/souths and
min of the easts/norths; an empty result shows up as `east ≤ west` or
`north ≤ south`. -/
noncomputable def Extent.intersectWith (a b : Extent) : Extent :=
  ⟨max a.west b.west, max a.south b.south, min a.east b.east, min a.north b.north⟩

/-- The layer state read and written by
`ImageryLayer.prototype._getLevelWithMaximumTexelSpacing`: the provider and
tiling-scheme constants, and the `_levelZeroMaximumTexelSpacing` field
(initialised to `undefined` by the constructor, source line 97). -/
structure ImageryLayerLOD where
  maximumRadius : ℝ
  tileWidth : ℝ
  numberOfLevelZeroTilesX : ℝ
  levelZeroMaximumTexelSpacing : Option ℝ

/-- `ImageryLayer.prototype._getLevelWithMaximumTexelSpacing` (source lines
107-130).  The memoization guard on `_levelZeroMaximumTexelSpacing` is
commented out in the source (lines 109 and 117), so the value is recomputed
from the current latitude and stored on every call.  `Math.log(x)/Math.log(2)`
is `Real.logb 2 x` and `Math.round` is `round` (both round halves up);
the final `| 0` 32-bit truncation is the identity on representable levels and
is not modelled. -/
noncomputable def getLevelWithMaximumTexelSpacing (layer : ImageryLayerLOD)
    (texelSpacing latitudeClosestToEquator : ℝ) : ℤ × ImageryLayerLOD :=
  let latitudeFactor := Real.cos latitudeClosestToEquator
  let levelZeroMaximumTexelSpacing :=
    layer.maximumRadius * 2 * Real.pi * latitudeFactor /
      (layer.tileWidth * layer.numberOfLevelZeroTilesX)
  let layer' := { layer with levelZeroMaximumTexelSpacing := some levelZeroMaximumTexelSpacing }
  let twoToTheLevelPower := levelZeroMaximumTexelSpacing / texelSpacing
  let level := Real.log twoToTheLevelPower / Real.log 2
  (round level, layer')

/-- The imagery level selection of `createTileImagerySkeletons` (source lines
161-162): the level from `_getLevelWithMaximumTexelSpacing`, clamped into
`[0, imageryProvider.maxLevel]` by `Math.max(0, Math.min(maxLevel, level))`,
together with the updated layer state. -/
noncomputable def selectImageryLevel (layer : ImageryLayerLOD) (maxLevel : ℤ)
    (targetGeometricError latitudeClosestToEquator : ℝ) : ℤ × ImageryLayerLOD :=
  let lvl := getLevelWithMaximumTexelSpacing layer targetGeometricError
    latitudeClosestToEquator
  (max 0 (min maxLevel lvl.1), lvl.2)

/-- The imagery tiling scheme collaborator (spec section 6): corner positions
are `(longitude, latitude)` pairs. -/
structure TilingSchemeM where
  positionToTileXY : ℝ × ℝ → ℤ → ℤ × ℤ
  tileXYToExtent : ℤ → ℤ → ℤ → Extent
  tileXYToNativeExtent : ℤ → ℤ → ℤ → Extent
  extentToNativeExtent : Extent → Extent

/-- The fields of a `TileImagery` binding created by
`createTileImagerySkeletons`. -/
structure TileImageryB where
  x : ℤ
  y : ℤ
  level : ℤ
  textureTranslation : ℝ × ℝ
  textureScale : ℝ × ℝ

/-- The closed integer interval `[lo, hi]` as a list, for the nested
`for` loops of source lines 197-198. -/
def intRange (lo hi : ℤ) : List ℤ :=
  (List.range (hi + 1 - lo).toNat).map (fun k => lo + k)

/-- The body of the loop of source lines 197-207: one overlay binding, with
texture translation and scale mapping the imagery tile's native extent into
the terrain tile's native extent. -/
noncomputable def makeTileImagery (scheme : TilingSchemeM) (terrainExtent : Extent)
    (terrainWidth terrainHeight : ℝ) (i j imageryLevel : ℤ) : TileImageryB :=
  let imageryExtent := scheme.tileXYToNativeExtent i j imageryLevel
  { x := i, y := j, level := imageryLevel
    textureTranslation :=
      ((imageryExtent.west - terrainExtent.west) / terrainWidth,
       (imageryExtent.south - terrainExtent.south) / terrainHeight)
    textureScale :=
      ((imageryExtent.east - imageryExtent.west) / terrainWidth,
       (imageryExtent.north - imageryExtent.south) / terrainHeight) }

/-- Result of `createTileImagerySkeletons`: the boolean return value, the
bindings pushed onto `tile.imagery`, and the updated layer state. -/
structure SkeletonResult where
  overlap : Bool
  imagery : List TileImageryB
  layer : ImageryLayerLOD

/-- `ImageryLayer.prototype.createTileImagerySkeletons` (source lines
132-211).  `providerExtent` is `imageryProvider.extent`, `layerExtent` the
layer's clip extent, `maxLevel` the provider's maximum level,
`getLevelMaximumGeometricError` the terrain provider collaborator, and
`epsilon10` the boundary-coincidence epsilon `CesiumMath.EPSILON10`. -/
noncomputable def createTileImagerySkeletons (scheme : TilingSchemeM)
    (layer : ImageryLayerLOD) (providerExtent layerExtent : Extent) (maxLevel : ℤ)
    (tileExtent : Extent) (tileLevel : ℤ)
    (getLevelMaximumGeometricError : ℤ → ℝ) (epsilon10 : ℝ) : SkeletonResult :=
  let extent := (tileExtent.intersectWith providerExtent).intersectWith layerExtent
  if extent.east ≤ extent.west ∨ extent.north ≤ extent.south then
    -- no overlap between this terrain tile and this imagery provider
    ⟨false, [], layer⟩
  else
    let latitudeClosestToEquator :=
      if extent.south > 0 then extent.south
      else if extent.north < 0 then extent.north
      else 0
    let errorRatio : ℝ := 1
    let targetGeometricError := errorRatio * getLevelMaximumGeometricError tileLevel
    let lvl := selectImageryLevel layer maxLevel targetGeometricError
      latitudeClosestToEquator
    let imageryLevel := lvl.1
    let northwestTileCoordinates := scheme.positionToTileXY (extent.west, extent.north) imageryLevel
    let southeastTileCoordinates := scheme.positionToTileXY (extent.east, extent.south) imageryLevel
    -- off-by-one adjustments at floating-point boundary coincidences
    -- (source lines 175-189)
    let northwestTileExtent :=
      scheme.tileXYToExtent northwestTileCoordinates.1 northwestTileCoordinates.2 imageryLevel
    let nwY := if |northwestTileExtent.south - extent.north| < epsilon10 then
        northwestTileCoordinates.2 + 1 else northwestTileCoordinates.2
    let nwX := if |northwestTileExtent.east - extent.west| < epsilon10 then
        northwestTileCoordinates.1 + 1 else northwestTileCoordinates.1
    let southeastTileExtent :=
      scheme.tileXYToExtent southeastTileCoordinates.1 southeastTileCoordinates.2 imageryLevel
    let seY := if |southeastTileExtent.north - extent.south| < epsilon10 then
        southeastTileCoordinates.2 - 1 else southeastTileCoordinates.2
    let seX := if |southeastTileExtent.west - extent.east| < epsilon10 then
        southeastTileCoordinates.1 - 1 else southeastTileCoordinates.1
    let terrainExtent := scheme.extentToNativeExtent tileExtent
    let terrainWidth := terrainExtent.east - terrainExtent.west
    let terrainHeight := terrainExtent.north - terrainExtent.south
    let imagery := (intRange nwX seX).flatMap (fun i =>
      (intRange nwY seY).map (fun j =>
        makeTileImagery scheme terrainExtent terrainWidth terrainHeight i j imageryLevel))
    ⟨true, imagery, lvl.2⟩

/-! ## Tile construction (source lines 499-609)

The `Tile` constructor validates its `description` argument and throws
`DeveloperError`s for invalid ones.  Collaborator types (the tiling scheme
and the extent objects it produces) are type parameters, as they are
duck-typed in the source. -/

/-- The fields of a `Tile` constructor description that participate in
validation and in the coordinate/extent resolution. -/
structure TileDescriptionM (σ ε : Type) where
  tilingScheme : Option σ
  x : Option Int
  y : Option Int
  level : Option Int
  zoom : Option Int
  extent : Option ε

/-- The fields of a constructed `Tile` relevant to the constructor
contract. -/
structure TileRecM (σ ε : Type) where
  tilingScheme : σ
  x : Int
  y : Int
  level : Int
  extent : ε
  state : TileState

/-- The `Tile` constructor (source lines 499-609).  The guard chain is
transcribed in order; note that the third guard tests `description.zoom < 0`
(source line 512) - not `description.level < 0` - so `undefined < 0` being
false means a negative `level` with no `zoom` field passes validation.  The
dead store of line 568 (an extent computed before the x/y-versus-extent
resolution of lines 577-589 overwrites it) is not modelled. -/
def tileConstruct {σ ε : Type} (tileXYToExtent : σ → Int → Int → Int → ε)
    (extentToTileXY : σ → ε → Int → Int × Int)
    (dOpt : Option (TileDescriptionM σ ε)) : Except String (TileRecM σ ε) :=
  match dOpt with
  | none => Except.error "description is required."
  | some d =>
    if (d.x.isNone || d.y.isNone) && d.extent.isNone then
      Except.error "Either description.extent is required or description.x and description.y are required."
    else if (d.x.isSome && d.y.isSome) && (d.x.getD 0 < 0 ∨ d.y.getD 0 < 0) then
      Except.error "description.x and description.y must be greater than or equal to zero."
    else if d.level.isNone || d.zoom.getD 0 < 0 then
      Except.error "description.level is required and must be greater than or equal to zero."
    else if d.tilingScheme.isNone then
      Except.error "description.tilingScheme is required."
    else
      match d.tilingScheme, d.level with
      | some scheme, some level =>
        match d.extent with
        | some e =>
          let coords := extentToTileXY scheme e level
          Except.ok ⟨scheme, coords.1, coords.2, level, e, TileState.UNLOADED⟩
        | none =>
          -- both coordinates are present here: the first guard did not fire
          let x := d.x.getD 0
          let y := d.y.getD 0
          Except.ok ⟨scheme, x, y, level, tileXYToExtent scheme x y level, TileState.UNLOADED⟩
      | _, _ =>
        -- unreachable: the third and fourth guards ensure both are present
        Except.error "description.level is required and must be greater than or equal to zero."

/-! ## Theorems -/

/-- C1 (counterexample): seven concurrent fetch attempts to the same host,
from an idle start, are *all* issued - the seventh is not deferred - because
the admission check (source line 239) defers only when the count already
*exceeds* 6.  After the seven attempts the host has seven open fetches and
the counter reads 7. -/
theorem requestImagery_seven_attempts_all_issued :
    (runReq (fun _ => "h")
      [ReqEvent.attempt "u1", ReqEvent.attempt "u2", ReqEvent.attempt "u3",
       ReqEvent.attempt "u4", ReqEvent.attempt "u5", ReqEvent.attempt "u6",
       ReqEvent.attempt "u7"]).openReqs.length = 7 ∧
    (runReq (fun _ => "h")
      [ReqEvent.attempt "u1", ReqEvent.attempt "u2", ReqEvent.attempt "u3",
       ReqEvent.attempt "u4", ReqEvent.attempt "u5", ReqEvent.attempt "u6",
       ReqEvent.attempt "u7"]).active "h" = JNum.int 7 := by
  constructor <;> rfl

/-- Helper: a `JNum` whose `orZero` is an integer is either the absent
property with value 0 or that integer itself. -/
theorem JNum.orZero_eq_int {v : JNum} {n : Int} (hv : v.orZero = JNum.int n) :
    (v = JNum.undef ∧ n = 0) ∨ v = JNum.int n := by
  cases v with
  | undef => exact Or.inl ⟨rfl, by cases hv; rfl⟩
  | nan => cases hv
  | int m => exact Or.inr (by cases hv; rfl)

/-- Helper: one driver step preserves the admission-control invariant - the
host counter (read through `orZero`, as the admission check does) equals the
number of open fetches plus the number of failed completions, and that sum
never exceeds 7. -/
theorem stepReq_preserves_admission_inv (getHostname : String → String) (h : String)
    (hh : ∀ u, getHostname u = h) (hne : h ≠ "") (s : ReqRunState) (e : ReqEvent)
    (hinv : (s.active h).orZero = JNum.int (s.openReqs.length + s.failedCount) ∧
      s.openReqs.length + s.failedCount ≤ 7) :
    ((stepReq getHostname s e).active h).orZero
      = JNum.int ((stepReq getHostname s e).openReqs.length
        + (stepReq getHostname s e).failedCount) ∧
    (stepReq getHostname s e).openReqs.length + (stepReq getHostname s e).failedCount ≤ 7 := by
  obtain ⟨hcount, hle⟩ := hinv
  cases e with
  | attempt url =>
    simp only [stepReq, requestImageryStart, hh]
    cases hc : s.cache.get url with
    | some item =>
      cases item <;> simpa [hc] using ⟨hcount, hle⟩
    | none =>
      simp only [hc]
      rw [if_pos hne]
      cases hgt : (s.active h).orZero.gtInt 6 with
      | true => simpa using ⟨hcount, hle⟩
      | false =>
        have hn6 : (s.openReqs.length : Int) + s.failedCount ≤ 6 := by
          rw [hcount] at hgt
          simpa [JNum.gtInt] using hgt
        have key : ((s.active h).orZero).add1.orZero
            = JNum.int ((s.openReqs.length : Int) + s.failedCount + 1) := by
          rw [hcount]
          rfl
        constructor
        · simp [key, JNum.int.injEq]
          omega
        · simp
          omega
  | finishImage url img =>
    by_cases hmem : url ∈ s.openReqs
    · have hlen : s.openReqs.length = (s.openReqs.erase url).length + 1 := by
        rw [List.length_erase_of_mem hmem]
        have := List.length_pos_of_mem hmem
        omega
      rcases JNum.orZero_eq_int hcount with ⟨_, habs⟩ | hval
      · omega
      · simp only [stepReq, if_pos hmem, requestImageryOnSuccess, hh]
        constructor
        · simp [hval, JNum.sub1, JNum.orZero]
          rw [hlen] at hval ⊢
          push_cast
          ring
        · omega
    · simpa [stepReq, hmem] using ⟨hcount, hle⟩
  | finishEmpty url =>
    by_cases hmem : url ∈ s.openReqs
    · have hlen : s.openReqs.length = (s.openReqs.erase url).length + 1 := by
        rw [List.length_erase_of_mem hmem]
        have := List.length_pos_of_mem hmem
        omega
      rcases JNum.orZero_eq_int hcount with ⟨_, habs⟩ | hval
      · omega
      · simp only [stepReq, if_pos hmem, requestImageryOnSuccess, hh]
        constructor
        · simp [hval, JNum.sub1, JNum.orZero]
          rw [hlen] at hval ⊢
          push_cast
          ring
        · omega
    · simpa [stepReq, hmem] using ⟨hcount, hle⟩
  | fail url =>
    by_cases hmem : url ∈ s.openReqs
    · have hlen : s.openReqs.length = (s.openReqs.erase url).length + 1 := by
        rw [List.length_erase_of_mem hmem]
        have := List.length_pos_of_mem hmem
        omega
      simp only [stepReq, if_pos hmem, requestImageryOnFailure]
      constructor
      · rw [hcount]
        congr 1
        omega
      · omega
    · simpa [stepReq, hmem] using ⟨hcount, hle⟩

/-- Helper: the admission-control invariant holds along any event fold. -/
theorem foldReq_admission_inv (getHostname : String → String) (h : String)
    (hh : ∀ u, getHostname u = h) (hne : h ≠ "") :
    ∀ (events : List ReqEvent) (s : ReqRunState),
      ((s.active h).orZero = JNum.int (s.openReqs.length + s.failedCount) ∧
        s.openReqs.length + s.failedCount ≤ 7) →
      (((events.foldl (stepReq getHostname) s).active h).orZero
          = JNum.int ((events.foldl (stepReq getHostname) s).openReqs.length
            + (events.foldl (stepReq getHostname) s).failedCount) ∧
        (events.foldl (stepReq getHostname) s).openReqs.length
          + (events.foldl (stepReq getHostname) s).failedCount ≤ 7)
  | [], _, hinv => hinv
  | e :: es, s, hinv =>
    foldReq_admission_inv getHostname h hh hne es (stepReq getHostname s e)
      (stepReq_preserves_admission_inv getHostname h hh hne s e hinv)

/-- C1 (amended): per-host admission control bounds concurrency at **7**, not
6.  For every workload whose resolved URLs share one host `h ≠ ""`, the
number of in-flight fetches (plus the slots leaked by failed completions)
never exceeds 7 and always equals the host's counter; a fetch attempt that
finds the counter above 6 is deferred - its binding is set to UNLOADED and
nothing is queued or counted - and an attempt that finds the counter at 6 or
below (as after a successful completion of one of 7 in-flight requests) is
issued. -/
theorem requestImagery_admission_bounds_inflight (getHostname : String → String)
    (h : String) (hh : ∀ u, getHostname u = h) (hne : h ≠ "")
    (events : List ReqEvent) :
    (((runReq getHostname events).active h).orZero
        = JNum.int ((runReq getHostname events).openReqs.length
          + (runReq getHostname events).failedCount) ∧
      (runReq getHostname events).openReqs.length
        + (runReq getHostname events).failedCount ≤ 7) ∧
    (∀ (cache : ImageryCacheM) (active : String → JNum) (b : TileImageryM) (url : String),
      cache.get url = none →
      (active h).orZero.gtInt 6 = true →
      requestImageryStart getHostname cache active b url
        = ⟨cache, active, { b with state := TileState.UNLOADED }, false⟩) ∧
    (∀ (cache : ImageryCacheM) (active : String → JNum) (b : TileImageryM) (url : String),
      cache.get url = none →
      (active h).orZero.gtInt 6 = false →
      (requestImageryStart getHostname cache active b url).issued = true) := by
  refine ⟨?_, ?_, ?_⟩
  · exact foldReq_admission_inv getHostname h hh hne events ReqRunState.initial ⟨rfl, by decide⟩
  · intro cache active b url hc hgt
    simp [requestImageryStart, hc, hh, hne, hgt]
  · intro cache active b url hc hgt
    simp [requestImageryStart, hc, hh, hne, hgt]

/-- C1 witness: the amended bound applied to eight concurrent attempts to one
host - seven are issued and the invariant caps the in-flight count at 7. -/
theorem requestImagery_admission_bounds_inflight_witness :
    (runReq (fun _ => "h")
      [ReqEvent.attempt "u1", ReqEvent.attempt "u2", ReqEvent.attempt "u3",
       ReqEvent.attempt "u4", ReqEvent.attempt "u5", ReqEvent.attempt "u6",
       ReqEvent.attempt "u7", ReqEvent.attempt "u8"]).openReqs.length
      + (runReq (fun _ => "h")
      [ReqEvent.attempt "u1", ReqEvent.attempt "u2", ReqEvent.attempt "u3",
       ReqEvent.attempt "u4", ReqEvent.attempt "u5", ReqEvent.attempt "u6",
       ReqEvent.attempt "u7", ReqEvent.attempt "u8"]).failedCount ≤ 7 :=
  (requestImagery_admission_bounds_inflight (fun _ => "h") "h" (fun _ => rfl)
    (by decide)
    [ReqEvent.attempt "u1", ReqEvent.attempt "u2", ReqEvent.attempt "u3",
     ReqEvent.attempt "u4", ReqEvent.attempt "u5", ReqEvent.attempt "u6",
     ReqEvent.attempt "u7", ReqEvent.attempt "u8"]).1.2

/-- C2 (code bug, evaluated at the failing input): for an issued fetch that
*fails*, the rejection handler marks the binding FAILED and aborts the
pending cache entry but never decrements the host counter - it stays at 1.
The two success completions (with an image, and with an empty response)
do decrement the counter to 0 and set RECEIVED resp. INVALID, aborting the
cache entry in the empty case. -/
theorem requestImagery_failure_leaks_host_counter :
    ((runReq (fun _ => "h") [ReqEvent.attempt "u", ReqEvent.fail "u"]).active "h"
        = JNum.int 1 ∧
      (lookupBinding (runReq (fun _ => "h")
        [ReqEvent.attempt "u", ReqEvent.fail "u"]).bindings "u").state = TileState.FAILED ∧
      (runReq (fun _ => "h") [ReqEvent.attempt "u", ReqEvent.fail "u"]).cache.get "u"
        = none) ∧
    ((runReq (fun _ => "h") [ReqEvent.attempt "u", ReqEvent.finishImage "u" 5]).active "h"
        = JNum.int 0 ∧
      (lookupBinding (runReq (fun _ => "h")
        [ReqEvent.attempt "u", ReqEvent.finishImage "u" 5]).bindings "u").state
        = TileState.RECEIVED) ∧
    ((runReq (fun _ => "h") [ReqEvent.attempt "u", ReqEvent.finishEmpty "u"]).active "h"
        = JNum.int 0 ∧
      (lookupBinding (runReq (fun _ => "h")
        [ReqEvent.attempt "u", ReqEvent.finishEmpty "u"]).bindings "u").state
        = TileState.INVALID ∧
      (runReq (fun _ => "h") [ReqEvent.attempt "u", ReqEvent.finishEmpty "u"]).cache.get "u"
        = none) := by
  refine ⟨⟨?_, ?_, ?_⟩, ⟨?_, ?_⟩, ?_, ?_, ?_⟩ <;> rfl

/-- C3 (counterexample): `trimTiles` violates the claim twice over.  In the
queue built by rendering tiles 2 then 0, marking the start of frame (marker
0) and rendering tile 1 (head first: `[1, 0, 2]`), with tile 1 a child of
tile 2 and tile 1 TRANSITIONING: trimming to 0 tiles (a) frees and unlinks
the marker node 0 itself - `keepTrimming` is computed *before* the candidate
is processed (source lines 367-373) - and (b) releases the payload of tile 1,
a TRANSITIONING node lying strictly between the marker and the head, because
`Tile.freeResources` recurses into the children of the trimmed tile 2
(source lines 813-817); tile 1 ends up UNLOADED though still linked. -/
theorem trimTiles_frees_marker_node :
    (TileReplacementQueue.markTileRendered
      (TileReplacementQueue.markStartOfRenderFrame
        (TileReplacementQueue.runMarks [2, 0])) 1).lastBeforeStartOfFrame = some 0 ∧
    (TileReplacementQueue.markTileRendered
      (TileReplacementQueue.markStartOfRenderFrame
        (TileReplacementQueue.runMarks [2, 0])) 1).tiles = [1, 0, 2] ∧
    (fun n => if n = 1 then TileState.TRANSITIONING else TileState.UNLOADED) 1
      = TileState.TRANSITIONING ∧
    (TileReplacementQueue.trimTiles (fun n => if n = 2 then [1] else [])
      1 (fun n => if n = 1 then TileState.TRANSITIONING else TileState.UNLOADED)
      (TileReplacementQueue.markTileRendered
        (TileReplacementQueue.markStartOfRenderFrame
          (TileReplacementQueue.runMarks [2, 0])) 1) 0).trimmed = [2, 0] ∧
    (TileReplacementQueue.trimTiles (fun n => if n = 2 then [1] else [])
      1 (fun n => if n = 1 then TileState.TRANSITIONING else TileState.UNLOADED)
      (TileReplacementQueue.markTileRendered
        (TileReplacementQueue.markStartOfRenderFrame
          (TileReplacementQueue.runMarks [2, 0])) 1) 0).released = [2, 1, 0] ∧
    (TileReplacementQueue.trimTiles (fun n => if n = 2 then [1] else [])
      1 (fun n => if n = 1 then TileState.TRANSITIONING else TileState.UNLOADED)
      (TileReplacementQueue.markTileRendered
        (TileReplacementQueue.markStartOfRenderFrame
          (TileReplacementQueue.runMarks [2, 0])) 1) 0).states 1
      = TileState.UNLOADED ∧
    (TileReplacementQueue.trimTiles (fun n => if n = 2 then [1] else [])
      1 (fun n => if n = 1 then TileState.TRANSITIONING else TileState.UNLOADED)
      (TileReplacementQueue.markTileRendered
        (TileReplacementQueue.markStartOfRenderFrame
          (TileReplacementQueue.runMarks [2, 0])) 1) 0).queue.tiles = [1] := by
  refine ⟨?_, ?_, ?_, ?_, ?_, ?_, ?_⟩ <;> rfl

/-- Helper: a predecessor returned by `prevOf` is an element of the list. -/
theorem prevOf_mem :
    ∀ (l : List Nat) (t p : Nat), TileReplacementQueue.prevOf l t = some p → p ∈ l
  | [], _, _, h => by cases h
  | [_], _, _, h => by cases h
  | a :: b :: rest, t, p, h => by
    unfold TileReplacementQueue.prevOf at h
    split at h
    · next => cases h; exact List.mem_cons_self a _
    · next =>
      exact List.mem_cons_of_mem a (prevOf_mem (b :: rest) t p h)

/-- Helper: in a duplicate-free list, the predecessor of `t` is not `t`. -/
theorem prevOf_ne :
    ∀ (l : List Nat), l.Nodup → ∀ (t p : Nat),
      TileReplacementQueue.prevOf l t = some p → p ≠ t
  | [], _, _, _, h => by cases h
  | [_], _, _, _, h => by cases h
  | a :: b :: rest, hnd, t, p, h => by
    unfold TileReplacementQueue.prevOf at h
    split at h
    · next hb =>
      cases h
      subst hb
      have : a ∉ b :: rest := (List.nodup_cons.1 hnd).1
      exact fun hab => this (hab ▸ List.mem_cons_self b rest)
    · next =>
      exact prevOf_ne (b :: rest) (List.nodup_cons.1 hnd).2 t p h

/-- Helper: a prefix whose elements do not include `t` and that is followed by
a list starting with an element other than `t` does not affect the
predecessor of `t`. -/
theorem prevOf_append :
    ∀ (pre cur : List Nat) (t marker : Nat), cur.head? = some marker →
      t ≠ marker → t ∉ pre →
      TileReplacementQueue.prevOf (pre ++ cur) t = TileReplacementQueue.prevOf cur t
  | [], _, _, _, _, _, _ => by simp
  | a :: pre, cur, t, marker, hhead, hne, hpre => by
    cases hrest : pre ++ cur with
    | nil =>
      cases cur with
      | nil => cases hhead
      | cons c cs => simp at hrest
    | cons b rest =>
      have hb : b ≠ t := by
        cases pre with
        | nil =>
          cases cur with
          | nil => cases hhead
          | cons c cs =>
            simp only [List.nil_append, List.cons.injEq] at hrest
            simp only [List.head?_cons, Option.some.injEq] at hhead
            intro hbt
            exact hne (by rw [← hbt, ← hrest.1]; exact hhead)
        | cons a2 pre2 =>
          simp only [List.cons_append, List.cons.injEq] at hrest
          intro hbt
          refine hpre ?_
          rw [← hrest.1] at hbt
          rw [← hbt]
          simp
      have hstep : TileReplacementQueue.prevOf (a :: pre ++ cur) t
          = TileReplacementQueue.prevOf (pre ++ cur) t := by
        rw [List.cons_append, hrest]
        conv_lhs => rw [TileReplacementQueue.prevOf]
        rw [if_neg hb]
      rw [hstep]
      exact prevOf_append pre cur t marker hhead hne
        (fun ht => hpre (List.mem_cons_of_mem a ht))

/-- Helper: a tile is in its own `freeResources` subtree. -/
theorem subtreeList_self_mem (children : Nat → List Nat) :
    ∀ (fuel t : Nat), t ∈ TileReplacementQueue.subtreeList children fuel t
  | 0, t => by simp [TileReplacementQueue.subtreeList]
  | fuel + 1, t => by simp [TileReplacementQueue.subtreeList]

/-- Helper: the trim-loop invariant holds of a loop exit that changes
nothing. -/
theorem trimLoopInv_id (children : Nat → List Nat) (treeFuel : Nat)
    (states : Nat → TileState) (q : TileReplacementQueue)
    (trimmedAcc releasedAcc cur : List Nat) :
    TileReplacementQueue.TrimLoopInv children treeFuel states q trimmedAcc
      releasedAcc cur ⟨q, states, trimmedAcc, releasedAcc⟩ :=
  ⟨fun _ ht => Or.inl ht, fun _ hx => Or.inl hx, fun _ hy => hy, fun _ hy => hy,
   fun _ ht => Or.inl ht, fun _ _ => rfl, fun _ ht => Or.inl ht,
   fun _ ht hnot => absurd ht hnot⟩

/-- Helper: the trim-loop walk maintains `TrimLoopInv`.  The linked list
splits as `pre ++ cur` with the marker at the head of `cur` and the loop
candidate inside `cur`; the walk trims candidates only out of `cur`,
releases payload only for the subtrees of trimmed candidates, and touches no
other tile's state. -/
theorem trimLoop_inv :
    ∀ (fuel : Nat) (children : Nat → List Nat) (treeFuel : Nat)
      (states : Nat → TileState) (q : TileReplacementQueue) (maxTiles : Nat)
      (cand : Option Nat) (trimmedAcc releasedAcc : List Nat)
      (pre cur : List Nat) (marker : Nat),
      q.tiles = pre ++ cur →
      cur.head? = some marker →
      q.lastBeforeStartOfFrame = some marker →
      q.tiles.Nodup →
      (∀ t, cand = some t → t ∈ cur) →
      TileReplacementQueue.TrimLoopInv children treeFuel states q trimmedAcc
        releasedAcc cur
        (TileReplacementQueue.trimLoop children treeFuel fuel states q maxTiles
          cand trimmedAcc releasedAcc)
  | 0, children, treeFuel, states, q, maxTiles, cand, trimmedAcc, releasedAcc,
      pre, cur, marker => by
    intro htiles hhead hlast hnodup hcand
    exact trimLoopInv_id children treeFuel states q trimmedAcc releasedAcc cur
  | fuel + 1, children, treeFuel, states, q, maxTiles, cand, trimmedAcc, releasedAcc,
      pre, cur, marker => by
    intro htiles hhead hlast hnodup hcand
    have hcurnd : cur.Nodup := by
      rw [htiles] at hnodup
      exact (List.nodup_append.1 hnodup).2.1
    have hdisj : pre.Disjoint cur := by
      rw [htiles] at hnodup
      exact (List.nodup_append.1 hnodup).2.2
    obtain ⟨ctail, rfl⟩ : ∃ ctail, cur = marker :: ctail := by
      cases cur with
      | nil => cases hhead
      | cons c cs =>
        simp only [List.head?_cons, Option.some.injEq] at hhead
        exact ⟨cs, by rw [hhead]⟩
    unfold TileReplacementQueue.trimLoop
    rw [hlast]
    cases cand with
    | none =>
      exact trimLoopInv_id children treeFuel states q trimmedAcc releasedAcc _
    | some t =>
      have ht_cur : t ∈ marker :: ctail := hcand t rfl
      dsimp only
      by_cases hcount : q.count > maxTiles
      · rw [if_pos hcount]
        by_cases hT : states t = TileState.TRANSITIONING
        · -- candidate is TRANSITIONING at this point: skipped
          rw [if_neg (not_not_intro hT)]
          by_cases hk : t = marker
          · rw [if_neg (not_not_intro (congrArg some hk ▸ rfl : some t = some marker))]
            exact trimLoopInv_id children treeFuel states q trimmedAcc releasedAcc _
          · rw [if_pos (fun h => hk (Option.some.inj h))]
            refine trimLoop_inv fuel children treeFuel states q maxTiles
              (TileReplacementQueue.prevOf q.tiles t) trimmedAcc releasedAcc pre
              (marker :: ctail) marker htiles hhead hlast hnodup ?_
            intro p hp
            have hp' : TileReplacementQueue.prevOf (marker :: ctail) t = some p := by
              rw [← prevOf_append pre (marker :: ctail) t marker hhead hk
                (fun htp => hdisj htp ht_cur), ← htiles]
              exact hp
            exact prevOf_mem _ _ _ hp'
        · -- candidate is freed (freeResources recursing into its children)
          -- and unlinked
          rw [if_pos hT]
          by_cases hk : t = marker
          · rw [if_neg (not_not_intro (congrArg some hk ▸ rfl : some t = some marker))]
            dsimp only [TileReplacementQueue.freeResources]
            refine ⟨?_, ?_, ?_, ?_, ?_, ?_, ?_, ?_⟩
            · intro t' ht'
              rcases List.mem_append.1 ht' with h1 | h1
              · exact Or.inl h1
              · simp only [List.mem_singleton] at h1
                exact Or.inr (h1 ▸ ht_cur)
            · intro x hx
              by_cases hxt : x = t
              · exact Or.inr (List.mem_append_right _ (by simp [hxt]))
              · refine Or.inl ?_
                show x ∈ q.tiles.erase t
                exact hnodup.mem_erase_iff.2 ⟨hxt, hx⟩
            · intro y hy
              exact List.mem_append_left _ hy
            · intro y hy
              exact List.mem_append_left _ hy
            · intro t' ht'
              rcases List.mem_append.1 ht' with h1 | h1
              · exact Or.inl h1
              · exact Or.inr ⟨t, List.mem_append_right _ (by simp), h1⟩
            · intro x hx
              have hxL : x ∉ TileReplacementQueue.subtreeList children treeFuel t :=
                fun hm => hx (List.mem_append_right _ hm)
              exact if_neg hxL
            · intro t' ht'
              rcases List.mem_append.1 ht' with h1 | h1
              · exact Or.inl h1
              · simp only [List.mem_singleton] at h1
                exact Or.inr (List.mem_append_right _
                  (h1 ▸ subtreeList_self_mem children treeFuel t))
            · intro t' ht' hnot
              rcases List.mem_append.1 ht' with h1 | h1
              · exact absurd h1 hnot
              · simp only [List.mem_singleton] at h1
                exact Or.inl (h1 ▸ hT)
          · rw [if_pos (fun h => hk (Option.some.inj h))]
            dsimp only [TileReplacementQueue.freeResources]
            have ht_pre : t ∉ pre := fun htp => hdisj htp ht_cur
            have htiles' : (q.remove t).tiles = pre ++ (marker :: ctail).erase t := by
              show q.tiles.erase t = _
              rw [htiles]
              exact List.erase_append_right _ ht_pre
            have herase : (marker :: ctail).erase t = marker :: ctail.erase t :=
              List.erase_cons_tail (by simp [Ne.symm hk])
            have hhead' : ((marker :: ctail).erase t).head? = some marker := by
              rw [herase]; rfl
            have hlast' : (q.remove t).lastBeforeStartOfFrame = some marker := by
              show (if q.lastBeforeStartOfFrame = some t then _ else _) = _
              rw [hlast, if_neg (fun h => hk (Option.some.inj h).symm)]
            have hnodup' : (q.remove t).tiles.Nodup := by
              show (q.tiles.erase t).Nodup
              exact hnodup.erase t
            have hcand' : ∀ p, TileReplacementQueue.prevOf q.tiles t = some p →
                p ∈ (marker :: ctail).erase t := by
              intro p hp
              have hp' : TileReplacementQueue.prevOf (marker :: ctail) t = some p := by
                rw [← prevOf_append pre (marker :: ctail) t marker hhead hk ht_pre,
                  ← htiles]
                exact hp
              exact hcurnd.mem_erase_iff.2
                ⟨prevOf_ne _ hcurnd t p hp', prevOf_mem _ _ _ hp'⟩
            obtain ⟨i1, i2, i3, i4, i5, i6, i7, i8⟩ := trimLoop_inv fuel children
              treeFuel
              (fun n => if n ∈ TileReplacementQueue.subtreeList children treeFuel t
                then TileState.UNLOADED else states n)
              (q.remove t) maxTiles (TileReplacementQueue.prevOf q.tiles t)
              (trimmedAcc ++ [t])
              (releasedAcc ++ TileReplacementQueue.subtreeList children treeFuel t)
              pre ((marker :: ctail).erase t) marker htiles' hhead' hlast' hnodup'
              (fun p hp => hcand' p hp)
            have htr : t ∈ (TileReplacementQueue.trimLoop children treeFuel fuel
                (fun n => if n ∈ TileReplacementQueue.subtreeList children treeFuel t
                  then TileState.UNLOADED else states n)
                (q.remove t) maxTiles (TileReplacementQueue.prevOf q.tiles t)
                (trimmedAcc ++ [t])
                (releasedAcc ++ TileReplacementQueue.subtreeList children treeFuel t)).trimmed :=
              i3 t (List.mem_append_right _ (by simp))
            have hrel : t ∈ (TileReplacementQueue.trimLoop children treeFuel fuel
                (fun n => if n ∈ TileReplacementQueue.subtreeList children treeFuel t
                  then TileState.UNLOADED else states n)
                (q.remove t) maxTiles (TileReplacementQueue.prevOf q.tiles t)
                (trimmedAcc ++ [t])
                (releasedAcc ++ TileReplacementQueue.subtreeList children treeFuel t)).released :=
              i4 t (List.mem_append_right _ (subtreeList_self_mem children treeFuel t))
            refine ⟨?_, ?_, ?_, ?_, ?_, ?_, ?_, ?_⟩
            · intro t' ht'
              rcases i1 t' ht' with h1 | h1
              · rcases List.mem_append.1 h1 with h3 | h3
                · exact Or.inl h3
                · simp only [List.mem_singleton] at h3
                  exact Or.inr (h3 ▸ ht_cur)
              · exact Or.inr (List.erase_subset _ _ h1)
            · intro x hx
              by_cases hxt : x = t
              · subst hxt
                exact Or.inr htr
              · refine i2 x ?_
                rw [htiles']
                rw [htiles] at hx
                rcases List.mem_append.1 hx with h1 | h1
                · exact List.mem_append_left _ h1
                · exact List.mem_append_right _ (hcurnd.mem_erase_iff.2 ⟨hxt, h1⟩)
            · intro y hy
              exact i3 y (List.mem_append_left _ hy)
            · intro y hy
              exact i4 y (List.mem_append_left _ hy)
            · intro t' ht'
              rcases i5 t' ht' with h1 | ⟨u, hu, hm⟩
              · rcases List.mem_append.1 h1 with h3 | h3
                · exact Or.inl h3
                · exact Or.inr ⟨t, htr, h3⟩
              · exact Or.inr ⟨u, hu, hm⟩
            · intro x hx
              have hx2 : x ∉ TileReplacementQueue.subtreeList children treeFuel t :=
                fun hm => hx (i4 x (List.mem_append_right _ hm))
              exact (i6 x hx).trans (if_neg hx2)
            · intro t' ht'
              rcases i7 t' ht' with h1 | h1
              · rcases List.mem_append.1 h1 with h3 | h3
                · exact Or.inl h3
                · simp only [List.mem_singleton] at h3
                  exact Or.inr (h3 ▸ hrel)
              · exact Or.inr h1
            · intro t' ht' hnot
              by_cases hteq : t' = t
              · exact Or.inl (hteq ▸ hT)
              · have hnot2 : t' ∉ trimmedAcc ++ [t] := by
                  intro hmem
                  rcases List.mem_append.1 hmem with h3 | h3
                  · exact hnot h3
                  · simp only [List.mem_singleton] at h3
                    exact hteq h3
                rcases i8 t' ht' hnot2 with h1 | h1 | ⟨u, hu, hune, hm⟩
                · by_cases hL : t' ∈ TileReplacementQueue.subtreeList children treeFuel t
                  · exact Or.inr (Or.inr ⟨t, htr, fun he => hteq he.symm, hL⟩)
                  · have h1' : (if t' ∈ TileReplacementQueue.subtreeList children treeFuel t
                        then TileState.UNLOADED else states t') ≠ TileState.TRANSITIONING := h1
                    rw [if_neg hL] at h1'
                    exact Or.inl h1'
                · rcases List.mem_append.1 h1 with h3 | h3
                  · exact Or.inr (Or.inl h3)
                  · exact Or.inr (Or.inr ⟨t, htr, fun he => hteq he.symm, h3⟩)
                · exact Or.inr (Or.inr ⟨u, hu, hune, hm⟩)
      · rw [if_neg hcount]
        exact trimLoopInv_id children treeFuel states q trimmedAcc releasedAcc _

/-- C3 (amended): `trimTiles` unlinks (and directly invokes `freeResources`
on) only walk candidates at or tailward of `lastBeforeStartOfFrame` - never
a node strictly between the marker and the head - and every node it does not
trim stays linked.  Because `Tile.freeResources` recurses into children,
payload is released exactly for trimmed candidates and their descendants:
any tile outside those subtrees keeps its state untouched, and an initially
TRANSITIONING tile is itself trimmed only when it is a descendant of another
trimmed tile whose earlier `freeResources` call already reset its state. -/
theorem trimTiles_spares_current_frame (children : Nat → List Nat) (treeFuel : Nat)
    (states : Nat → TileState) (q : TileReplacementQueue) (maxTiles : Nat)
    (pre post : List Nat) (marker : Nat)
    (htiles : q.tiles = pre ++ marker :: post)
    (hlast : q.lastBeforeStartOfFrame = some marker)
    (hnodup : q.tiles.Nodup) :
    (∀ t ∈ (TileReplacementQueue.trimTiles children treeFuel states q maxTiles).trimmed,
        t ∉ pre) ∧
    (∀ x ∈ q.tiles,
        x ∉ (TileReplacementQueue.trimTiles children treeFuel states q maxTiles).trimmed →
        x ∈ (TileReplacementQueue.trimTiles children treeFuel states q maxTiles).queue.tiles) ∧
    (∀ t ∈ (TileReplacementQueue.trimTiles children treeFuel states q maxTiles).released,
        ∃ u ∈ (TileReplacementQueue.trimTiles children treeFuel states q maxTiles).trimmed,
          t ∈ TileReplacementQueue.subtreeList children treeFuel u) ∧
    (∀ x, x ∉ (TileReplacementQueue.trimTiles children treeFuel states q maxTiles).released →
        (TileReplacementQueue.trimTiles children treeFuel states q maxTiles).states x
          = states x) ∧
    (∀ t ∈ (TileReplacementQueue.trimTiles children treeFuel states q maxTiles).trimmed,
        states t = TileState.TRANSITIONING →
        ∃ u ∈ (TileReplacementQueue.trimTiles children treeFuel states q maxTiles).trimmed,
          u ≠ t ∧ t ∈ TileReplacementQueue.subtreeList children treeFuel u) := by
  have hdisj : pre.Disjoint (marker :: post) := by
    rw [htiles] at hnodup
    exact (List.nodup_append.1 hnodup).2.2
  have hcand : ∀ t, q.tiles.getLast? = some t → t ∈ marker :: post := by
    intro t ht
    rw [htiles, List.getLast?_append_of_ne_nil pre (by simp)] at ht
    obtain ⟨hne, hx⟩ := List.mem_getLast?_eq_getLast (l := marker :: post) (x := t)
      (by simp [ht])
    rw [hx]
    exact List.getLast_mem hne
  obtain ⟨i1, i2, _, _, i5, i6, _, i8⟩ := trimLoop_inv (q.tiles.length + 1) children
    treeFuel states q maxTiles q.tiles.getLast? [] [] pre (marker :: post) marker
    htiles rfl hlast hnodup hcand
  refine ⟨?_, ?_, ?_, i6, ?_⟩
  · intro t ht
    rcases i1 t ht with h1 | h1
    · cases h1
    · exact fun hp => hdisj hp h1
  · intro x hx hxf
    rcases i2 x hx with h1 | h1
    · exact h1
    · exact absurd h1 hxf
  · intro t ht
    rcases i5 t ht with h1 | h1
    · cases h1
    · exact h1
  · intro t ht htrans
    rcases i8 t ht (by simp) with h1 | h1 | h1
    · exact absurd htrans h1
    · cases h1
    · exact h1

/-- C3 witness: in the queue `[3, 1, 5, 2]` (head first) with marker `1`,
tile `5` TRANSITIONING and no tile children, trimming to 0 tiles unlinks
nothing from the prefix `[3]` ahead of the marker, keeps every untrimmed
tile linked, releases payload only inside trimmed subtrees, leaves every
other tile's state untouched, and trims an initially TRANSITIONING tile
only as a descendant of another trimmed tile. -/
theorem trimTiles_spares_current_frame_witness :
    (∀ t ∈ (TileReplacementQueue.trimTiles (fun _ => []) 1
        (fun n => if n = 5 then TileState.TRANSITIONING else TileState.UNLOADED)
        ⟨[3, 1, 5, 2], 4, some 1⟩ 0).trimmed, t ∉ [3]) ∧
    (∀ x ∈ [3, 1, 5, 2],
        x ∉ (TileReplacementQueue.trimTiles (fun _ => []) 1
          (fun n => if n = 5 then TileState.TRANSITIONING else TileState.UNLOADED)
          ⟨[3, 1, 5, 2], 4, some 1⟩ 0).trimmed →
        x ∈ (TileReplacementQueue.trimTiles (fun _ => []) 1
          (fun n => if n = 5 then TileState.TRANSITIONING else TileState.UNLOADED)
          ⟨[3, 1, 5, 2], 4, some 1⟩ 0).queue.tiles) ∧
    (∀ t ∈ (TileReplacementQueue.trimTiles (fun _ => []) 1
        (fun n => if n = 5 then TileState.TRANSITIONING else TileState.UNLOADED)
        ⟨[3, 1, 5, 2], 4, some 1⟩ 0).released,
      ∃ u ∈ (TileReplacementQueue.trimTiles (fun _ => []) 1
        (fun n => if n = 5 then TileState.TRANSITIONING else TileState.UNLOADED)
        ⟨[3, 1, 5, 2], 4, some 1⟩ 0).trimmed,
        t ∈ TileReplacementQueue.subtreeList (fun _ => []) 1 u) ∧
    (∀ x, x ∉ (TileReplacementQueue.trimTiles (fun _ => []) 1
        (fun n => if n = 5 then TileState.TRANSITIONING else TileState.UNLOADED)
        ⟨[3, 1, 5, 2], 4, some 1⟩ 0).released →
      (TileReplacementQueue.trimTiles (fun _ => []) 1
        (fun n => if n = 5 then TileState.TRANSITIONING else TileState.UNLOADED)
        ⟨[3, 1, 5, 2], 4, some 1⟩ 0).states x
        = (fun n => if n = 5 then TileState.TRANSITIONING else TileState.UNLOADED) x) ∧
    (∀ t ∈ (TileReplacementQueue.trimTiles (fun _ => []) 1
        (fun n => if n = 5 then TileState.TRANSITIONING else TileState.UNLOADED)
        ⟨[3, 1, 5, 2], 4, some 1⟩ 0).trimmed,
      (fun n => if n = 5 then TileState.TRANSITIONING else TileState.UNLOADED) t
        = TileState.TRANSITIONING →
      ∃ u ∈ (TileReplacementQueue.trimTiles (fun _ => []) 1
        (fun n => if n = 5 then TileState.TRANSITIONING else TileState.UNLOADED)
        ⟨[3, 1, 5, 2], 4, some 1⟩ 0).trimmed,
        u ≠ t ∧ t ∈ TileReplacementQueue.subtreeList (fun _ => []) 1 u) :=
  trimTiles_spares_current_frame (fun _ => []) 1
    (fun n => if n = 5 then TileState.TRANSITIONING else TileState.UNLOADED)
    ⟨[3, 1, 5, 2], 4, some 1⟩ 0 [3] [5, 2] 1 rfl rfl (by decide)

/-- Helper: `markTileRendered` always leaves `item` at the head. -/
theorem markTileRendered_head (q : TileReplacementQueue) (item : Nat) :
    (q.markTileRendered item).tiles.head? = some item := by
  unfold TileReplacementQueue.markTileRendered
  split
  · next hhead =>
    split <;> simpa using hhead
  · next hhead =>
    dsimp only
    split
    · next heq => simp
    · next => simp

/-- Helper: one `markTileRendered` call preserves the structural LRU
invariant, and afterwards exactly the previously linked tiles plus `item`
are linked. -/
theorem markTileRendered_step (q : TileReplacementQueue) (S : List Nat) (item : Nat)
    (hnodup : q.tiles.Nodup) (hcount : q.count = q.tiles.length)
    (hmem : ∀ x, x ∈ q.tiles ↔ x ∈ S) :
    (q.markTileRendered item).tiles.Nodup ∧
    (q.markTileRendered item).count = (q.markTileRendered item).tiles.length ∧
    (∀ x, x ∈ (q.markTileRendered item).tiles ↔ x ∈ item :: S) := by
  unfold TileReplacementQueue.markTileRendered
  split
  · next hhead =>
    have hintiles : item ∈ q.tiles := by
      cases htiles : q.tiles with
      | nil => rw [htiles] at hhead; cases hhead
      | cons a t =>
        rw [htiles] at hhead
        simp at hhead
        simp [htiles, hhead]
    have hmem' : ∀ x, x ∈ q.tiles ↔ x ∈ item :: S := by
      intro x
      constructor
      · intro hx
        exact List.mem_cons_of_mem _ ((hmem x).1 hx)
      · intro hx
        rcases List.mem_cons.1 hx with rfl | hx
        · exact hintiles
        · exact (hmem x).2 hx
    split <;> exact ⟨hnodup, hcount, hmem'⟩
  · next hhead =>
    dsimp only
    split
    · next heq =>
      have hempty : q.tiles = [] := heq
      rw [hempty] at hcount hmem
      simp at hcount
      refine ⟨by simp, by simpa using hcount, ?_⟩
      intro x
      have hS : x ∉ S := fun hx => by simpa using (hmem x).2 hx
      simp [List.mem_cons, hS]
    · next a t heq =>
      by_cases hin : item ∈ q.tiles
      · simp only [if_pos hin, TileReplacementQueue.remove]
        have hlen : q.tiles.length ≥ 1 := List.length_pos_of_mem hin
        refine ⟨?_, ?_, ?_⟩
        · simp only [List.nodup_cons]
          exact ⟨hnodup.not_mem_erase, hnodup.erase item⟩
        · simp only [List.length_cons, List.length_erase_of_mem hin]
          rw [hcount]
          omega
        · intro x
          simp only [List.mem_cons, hnodup.mem_erase_iff]
          constructor
          · rintro (rfl | ⟨_, hx⟩)
            · exact Or.inl rfl
            · exact Or.inr ((hmem x).1 hx)
          · rintro (rfl | hx)
            · exact Or.inl rfl
            · by_cases hxi : x = item
              · exact Or.inl hxi
              · exact Or.inr ⟨hxi, (hmem x).2 hx⟩
      · simp only [if_neg hin]
        refine ⟨?_, ?_, ?_⟩
        · simp only [List.nodup_cons]
          exact ⟨hin, hnodup⟩
        · simp [hcount]
        · intro x
          simp only [List.mem_cons, hmem x]

/-- Helper: the structural LRU invariant holds after any fold of
`markTileRendered` calls, relative to the tiles linked at the start. -/
theorem foldMarks_inv :
    ∀ (ms : List Nat) (q : TileReplacementQueue) (S : List Nat),
      q.tiles.Nodup → q.count = q.tiles.length → (∀ x, x ∈ q.tiles ↔ x ∈ S) →
      (ms.foldl TileReplacementQueue.markTileRendered q).tiles.Nodup ∧
      (ms.foldl TileReplacementQueue.markTileRendered q).count
        = (ms.foldl TileReplacementQueue.markTileRendered q).tiles.length ∧
      (∀ x, x ∈ (ms.foldl TileReplacementQueue.markTileRendered q).tiles ↔
        x ∈ ms ∨ x ∈ S)
  | [], q, S, hnodup, hcount, hmem => by
    refine ⟨hnodup, hcount, ?_⟩
    intro x
    simpa using hmem x
  | m :: ms, q, S, hnodup, hcount, hmem => by
    obtain ⟨h1, h2, h3⟩ := markTileRendered_step q S m hnodup hcount hmem
    obtain ⟨g1, g2, g3⟩ := foldMarks_inv ms (q.markTileRendered m) (m :: S) h1 h2 h3
    refine ⟨g1, g2, ?_⟩
    intro x
    rw [List.foldl_cons] at *
    rw [g3 x]
    simp only [List.mem_cons]
    tauto

/-- Helper: after a non-empty fold of `markTileRendered` calls the head is
the most recently marked tile. -/
theorem foldMarks_head :
    ∀ (ms : List Nat) (q : TileReplacementQueue), ms ≠ [] →
      (ms.foldl TileReplacementQueue.markTileRendered q).tiles.head? = ms.getLast?
  | [], _, hne => absurd rfl hne
  | [m], q, _ => by
    simpa using markTileRendered_head q m
  | m :: m2 :: ms, q, _ => by
    rw [List.foldl_cons, List.getLast?_cons_cons]
    exact foldMarks_head (m2 :: ms) (q.markTileRendered m) (by simp)

/-- C4: after any sequence of `markTileRendered` calls on an initially empty
queue, every marked tile is linked exactly once, the `count` field equals the
number of linked nodes, that number is the number of distinct tiles marked,
and the head is the most recently marked tile. -/
theorem markTileRendered_lru_invariant (ms : List Nat) :
    (∀ t ∈ ms, (TileReplacementQueue.runMarks ms).tiles.count t = 1) ∧
    (TileReplacementQueue.runMarks ms).tiles.Nodup ∧
    (TileReplacementQueue.runMarks ms).count
      = (TileReplacementQueue.runMarks ms).tiles.length ∧
    (TileReplacementQueue.runMarks ms).tiles.length = ms.dedup.length ∧
    (ms ≠ [] → (TileReplacementQueue.runMarks ms).tiles.head? = ms.getLast?) := by
  simp only [TileReplacementQueue.runMarks]
  obtain ⟨hnodup, hcount, hmem⟩ :=
    foldMarks_inv ms TileReplacementQueue.empty [] (by simp [TileReplacementQueue.empty])
      rfl (by simp [TileReplacementQueue.empty])
  have hmem' : ∀ x,
      x ∈ (ms.foldl TileReplacementQueue.markTileRendered TileReplacementQueue.empty).tiles
        ↔ x ∈ ms := by
    intro x
    simpa using hmem x
  refine ⟨?_, hnodup, hcount, ?_, ?_⟩
  · intro t ht
    exact List.count_eq_one_of_mem hnodup ((hmem' t).2 ht)
  · exact ((List.perm_ext_iff_of_nodup hnodup (List.nodup_dedup ms)).2
      (fun a => by rw [hmem' a, List.mem_dedup])).length_eq
  · intro hne
    exact foldMarks_head ms TileReplacementQueue.empty hne

/-- C4 witness: the invariant evaluated on the mark sequence `[0, 1, 0]` -
tile 0 is linked once and is the head after being re-marked. -/
theorem markTileRendered_lru_invariant_witness :
    (TileReplacementQueue.runMarks [0, 1, 0]).tiles.count 0 = 1 ∧
    (TileReplacementQueue.runMarks [0, 1, 0]).tiles.head? = [0, 1, 0].getLast? :=
  ⟨(markTileRendered_lru_invariant [0, 1, 0]).1 0 (by decide),
   (markTileRendered_lru_invariant [0, 1, 0]).2.2.2.2 (by decide)⟩

/-- C9 (code bug, evaluated at the failing input): a description with a
tiling scheme, `x = 0`, `y = 0` and `level = -1` (and no `zoom` field)
constructs successfully, although the claim - and the constructor's own error
message - require a negative level to throw.  Source line 512 tests
`description.zoom < 0` instead of `description.level < 0`, and in JavaScript
`undefined < 0` is false.  A missing level, by contrast, does throw. -/
theorem tileConstruct_accepts_negative_level :
    (tileConstruct (fun (_ : Unit) (_ _ _ : Int) => ()) (fun _ _ _ => (0, 0))
      (some ⟨some (), some 0, some 0, some (-1), none, none⟩)).isOk = true ∧
    (tileConstruct (fun (_ : Unit) (_ _ _ : Int) => ()) (fun _ _ _ => (0, 0))
      (some ⟨some (), some 0, some 0, none, none, none⟩)).isOk = false := by
  constructor <;> rfl

/-- C5: the selected imagery level is
`round(log2(levelZeroMaxTexelSpacing / targetGeometricError))` clamped into
`[0, maxLevel]`, with
`levelZeroMaxTexelSpacing = R * 2π * cos(lat) / (W * Nx)`; and for an
ellipsoid of radius `R`, tile width `W`, one level-zero tile and a target
geometric error equal to the level-zero spacing `R * 2π / W` at the equator,
the selected level is 0. -/
theorem imageryLevel_formula_and_level_zero (R W N lat err : ℝ) (maxLevel : ℤ)
    (stored : Option ℝ) (hR : 0 < R) (hW : 0 < W) (hmax : 0 ≤ maxLevel) :
    (selectImageryLevel ⟨R, W, N, stored⟩ maxLevel err lat).1
      = max 0 (min maxLevel
          (round (Real.logb 2 (R * (2 * Real.pi) * Real.cos lat / (W * N) / err)))) ∧
    (selectImageryLevel ⟨R, W, 1, stored⟩ maxLevel (R * (2 * Real.pi) / W) 0).1 = 0 := by
  constructor
  · have harg : R * 2 * Real.pi * Real.cos lat / (W * N)
        = R * (2 * Real.pi) * Real.cos lat / (W * N) := by ring
    simp only [selectImageryLevel, getLevelWithMaximumTexelSpacing, Real.logb]
    rw [harg]
  · have herr : R * (2 * Real.pi) / W ≠ 0 := by
      have hpi := Real.pi_pos
      positivity
    simp only [selectImageryLevel, getLevelWithMaximumTexelSpacing, Real.cos_zero,
      mul_one]
    have hlz : R * 2 * Real.pi / W = R * (2 * Real.pi) / W := by ring
    rw [hlz, div_self herr]
    simp only [Real.log_one, zero_div, round_zero]
    omega

/-- C5 witness: radius 1, tile width 1, one level-zero tile, maximum level 0;
the target error `1 * 2π / 1` selects level 0. -/
theorem imageryLevel_formula_and_level_zero_witness :
    (selectImageryLevel ⟨1, 1, 1, none⟩ 0 (1 * (2 * Real.pi) / 1) 0).1 = 0 :=
  (imageryLevel_formula_and_level_zero 1 1 1 0 1 0 none (by norm_num) (by norm_num)
    (by norm_num)).2

/-- C6: `createTileImagerySkeletons` returns true exactly when the
intersection of the terrain tile's extent with the imagery-source extent and
the layer's clip extent is non-empty, and whenever it returns false it
appends no overlay bindings; moreover the intersection of
`[-1,-1,1,1]` with `[0,0,2,2]` is `[0,0,1,1]`, the spec's scenario. -/
theorem createTileImagerySkeletons_overlap_iff (scheme : TilingSchemeM)
    (layer : ImageryLayerLOD) (providerExtent layerExtent : Extent) (maxLevel : ℤ)
    (tileExtent : Extent) (tileLevel : ℤ) (err : ℤ → ℝ) (eps : ℝ) :
    ((createTileImagerySkeletons scheme layer providerExtent layerExtent maxLevel
        tileExtent tileLevel err eps).overlap = true ↔
      ¬(((tileExtent.intersectWith providerExtent).intersectWith layerExtent).east
          ≤ ((tileExtent.intersectWith providerExtent).intersectWith layerExtent).west ∨
        ((tileExtent.intersectWith providerExtent).intersectWith layerExtent).north
          ≤ ((tileExtent.intersectWith providerExtent).intersectWith layerExtent).south)) ∧
    ((createTileImagerySkeletons scheme layer providerExtent layerExtent maxLevel
        tileExtent tileLevel err eps).overlap = false →
      (createTileImagerySkeletons scheme layer providerExtent layerExtent maxLevel
        tileExtent tileLevel err eps).imagery = []) ∧
    Extent.intersectWith ⟨-1, -1, 1, 1⟩ ⟨0, 0, 2, 2⟩ = ⟨0, 0, 1, 1⟩ := by
  refine ⟨?_, ?_, ?_⟩
  · by_cases hc : ((tileExtent.intersectWith providerExtent).intersectWith
        layerExtent).east ≤ ((tileExtent.intersectWith providerExtent).intersectWith
        layerExtent).west ∨ ((tileExtent.intersectWith providerExtent).intersectWith
        layerExtent).north ≤ ((tileExtent.intersectWith providerExtent).intersectWith
        layerExtent).south
    · simp [createTileImagerySkeletons, hc]
    · simp [createTileImagerySkeletons, hc]
  · intro hov
    by_cases hc : ((tileExtent.intersectWith providerExtent).intersectWith
        layerExtent).east ≤ ((tileExtent.intersectWith providerExtent).intersectWith
        layerExtent).west ∨ ((tileExtent.intersectWith providerExtent).intersectWith
        layerExtent).north ≤ ((tileExtent.intersectWith providerExtent).intersectWith
        layerExtent).south
    · simp [createTileImagerySkeletons, hc]
    · rw [createTileImagerySkeletons] at hov
      simp only [if_neg hc] at hov
      cases hov
  · simp only [Extent.intersectWith, Extent.mk.injEq]
    norm_num

/-- C7: every overlay binding appended by `createTileImagerySkeletons`
carries the texture translation
`((imgRect.west - terrainRect.west)/terrainWidth,
(imgRect.south - terrainRect.south)/terrainHeight)` and the texture scale
`(imgWidth/terrainWidth, imgHeight/terrainHeight)` over native rectangles;
consequently a binding whose imagery tile's native rectangle equals the
terrain tile's native rectangle gets translation `(0, 0)` and scale
`(1, 1)`. -/
theorem tileImagery_translation_scale (scheme : TilingSchemeM)
    (layer : ImageryLayerLOD) (providerExtent layerExtent : Extent) (maxLevel : ℤ)
    (tileExtent : Extent) (tileLevel : ℤ) (err : ℤ → ℝ) (eps : ℝ) :
    (∀ b ∈ (createTileImagerySkeletons scheme layer providerExtent layerExtent
        maxLevel tileExtent tileLevel err eps).imagery,
      b.textureTranslation =
        (((scheme.tileXYToNativeExtent b.x b.y b.level).west
            - (scheme.extentToNativeExtent tileExtent).west)
          / ((scheme.extentToNativeExtent tileExtent).east
            - (scheme.extentToNativeExtent tileExtent).west),
         ((scheme.tileXYToNativeExtent b.x b.y b.level).south
            - (scheme.extentToNativeExtent tileExtent).south)
          / ((scheme.extentToNativeExtent tileExtent).north
            - (scheme.extentToNativeExtent tileExtent).south)) ∧
      b.textureScale =
        (((scheme.tileXYToNativeExtent b.x b.y b.level).east
            - (scheme.tileXYToNativeExtent b.x b.y b.level).west)
          / ((scheme.extentToNativeExtent tileExtent).east
            - (scheme.extentToNativeExtent tileExtent).west),
         ((scheme.tileXYToNativeExtent b.x b.y b.level).north
            - (scheme.tileXYToNativeExtent b.x b.y b.level).south)
          / ((scheme.extentToNativeExtent tileExtent).north
            - (scheme.extentToNativeExtent tileExtent).south))) ∧
    (∀ (te : Extent) (i j lvl : ℤ),
      scheme.tileXYToNativeExtent i j lvl = te →
      te.east - te.west ≠ 0 → te.north - te.south ≠ 0 →
      (makeTileImagery scheme te (te.east - te.west) (te.north - te.south)
          i j lvl).textureTranslation = (0, 0) ∧
      (makeTileImagery scheme te (te.east - te.west) (te.north - te.south)
          i j lvl).textureScale = (1, 1)) := by
  constructor
  · intro b hb
    by_cases hc : ((tileExtent.intersectWith providerExtent).intersectWith
        layerExtent).east ≤ ((tileExtent.intersectWith providerExtent).intersectWith
        layerExtent).west ∨ ((tileExtent.intersectWith providerExtent).intersectWith
        layerExtent).north ≤ ((tileExtent.intersectWith providerExtent).intersectWith
        layerExtent).south
    · rw [createTileImagerySkeletons] at hb
      simp only [if_pos hc] at hb
      cases hb
    · rw [createTileImagerySkeletons] at hb
      simp only [if_neg hc, List.mem_flatMap, List.mem_map] at hb
      obtain ⟨i, _, j, _, rfl⟩ := hb
      exact ⟨rfl, rfl⟩
  · intro te i j lvl himg hw hh
    simp only [makeTileImagery, himg]
    constructor
    · simp
    · rw [Prod.mk.injEq]
      exact ⟨div_self hw, div_self hh⟩

/-- C7 witness: for a tiling scheme whose imagery tile native rectangle is
the terrain tile's native rectangle `[0,0]x[2,3]`, the binding built by the
loop body gets translation `(0, 0)` and scale `(1, 1)`. -/
theorem tileImagery_translation_scale_witness :
    (makeTileImagery
        ⟨fun _ _ => (0, 0), fun _ _ _ => ⟨5, 5, 6, 6⟩, fun _ _ _ => ⟨0, 0, 2, 3⟩,
          fun e => e⟩
        ⟨0, 0, 2, 3⟩
        ((⟨0, 0, 2, 3⟩ : Extent).east - (⟨0, 0, 2, 3⟩ : Extent).west)
        ((⟨0, 0, 2, 3⟩ : Extent).north - (⟨0, 0, 2, 3⟩ : Extent).south)
        0 0 0).textureTranslation = (0, 0) ∧
    (makeTileImagery
        ⟨fun _ _ => (0, 0), fun _ _ _ => ⟨5, 5, 6, 6⟩, fun _ _ _ => ⟨0, 0, 2, 3⟩,
          fun e => e⟩
        ⟨0, 0, 2, 3⟩
        ((⟨0, 0, 2, 3⟩ : Extent).east - (⟨0, 0, 2, 3⟩ : Extent).west)
        ((⟨0, 0, 2, 3⟩ : Extent).north - (⟨0, 0, 2, 3⟩ : Extent).south)
        0 0 0).textureScale = (1, 1) :=
  (tileImagery_translation_scale
    ⟨fun _ _ => (0, 0), fun _ _ _ => ⟨5, 5, 6, 6⟩, fun _ _ _ => ⟨0, 0, 2, 3⟩,
      fun e => e⟩
    ⟨1, 1, 1, none⟩ ⟨0, 0, 1, 1⟩ ⟨0, 0, 1, 1⟩ 0 ⟨0, 0, 1, 1⟩ 0 (fun _ => 1) 0).2
    ⟨0, 0, 2, 3⟩ 0 0 0 rfl (by show (2 : ℝ) - 0 ≠ 0; norm_num)
    (by show (3 : ℝ) - 0 ≠ 0; norm_num)

/-- C8 (counterexample): `_levelZeroMaximumTexelSpacing` is *not* computed at
most once - the memoization guard is commented out (source lines 109, 117) -
so a second call with a different latitude overwrites the stored field with a
different value: latitude 0 stores `2π`, a following call at latitude `π/3`
stores `π`. -/
theorem levelZeroTexelSpacing_overwritten :
    ((getLevelWithMaximumTexelSpacing ⟨1, 1, 1, none⟩ 1 0).2).levelZeroMaximumTexelSpacing
      = some (2 * Real.pi) ∧
    ((getLevelWithMaximumTexelSpacing
        ((getLevelWithMaximumTexelSpacing ⟨1, 1, 1, none⟩ 1 0).2) 1
        (Real.pi / 3)).2).levelZeroMaximumTexelSpacing = some Real.pi ∧
    ((getLevelWithMaximumTexelSpacing
        ((getLevelWithMaximumTexelSpacing ⟨1, 1, 1, none⟩ 1 0).2) 1
        (Real.pi / 3)).2).levelZeroMaximumTexelSpacing
      ≠ ((getLevelWithMaximumTexelSpacing ⟨1, 1, 1, none⟩ 1 0).2).levelZeroMaximumTexelSpacing := by
  have h1 : ((getLevelWithMaximumTexelSpacing
      ⟨1, 1, 1, none⟩ 1 0).2).levelZeroMaximumTexelSpacing = some (2 * Real.pi) := by
    simp [getLevelWithMaximumTexelSpacing, Real.cos_zero]
    try ring
  have h2 : ((getLevelWithMaximumTexelSpacing
      ((getLevelWithMaximumTexelSpacing ⟨1, 1, 1, none⟩ 1 0).2) 1
      (Real.pi / 3)).2).levelZeroMaximumTexelSpacing = some Real.pi := by
    simp [getLevelWithMaximumTexelSpacing, Real.cos_pi_div_three]
    try ring
  refine ⟨h1, h2, ?_⟩
  rw [h1, h2]
  intro hcon
  have := Option.some.inj hcon
  have hpi := Real.pi_pos
  linarith

/-- C8 (amended): the derived value is recomputed from the provider constants
and the *current* latitude and stored on every call: the call's result does
not depend on the previously stored field, and the field afterwards holds
exactly the freshly computed value. -/
theorem getLevel_recomputes_every_call (R W N : ℝ) (stored other : Option ℝ)
    (ts lat : ℝ) :
    getLevelWithMaximumTexelSpacing ⟨R, W, N, stored⟩ ts lat
      = getLevelWithMaximumTexelSpacing ⟨R, W, N, other⟩ ts lat ∧
    ((getLevelWithMaximumTexelSpacing ⟨R, W, N, stored⟩ ts lat).2).levelZeroMaximumTexelSpacing
      = some (R * 2 * Real.pi * Real.cos lat / (W * N)) :=
  ⟨rfl, rfl⟩

/-- C10 (counterexample): with an empty resolved hostname the fetch is issued
without touching any counter, but on *successful completion* the handler
still executes `activeTileImageRequests[hostname]--` with the captured empty
hostname: the missing entry (`undefined`) is written as `NaN`.  So it is not
true that no in-flight counter is decremented for such a request. -/
theorem emptyHostname_counter_decremented :
    (runReq (fun _ => "") [ReqEvent.attempt "u"]).openReqs = ["u"] ∧
    (runReq (fun _ => "") [ReqEvent.attempt "u"]).active "" = JNum.undef ∧
    (runReq (fun _ => "")
      [ReqEvent.attempt "u", ReqEvent.finishImage "u" 0]).active "" = JNum.nan := by
  refine ⟨?_, ?_, ?_⟩ <;> rfl

/-- C10 (amended): a resolved URL with an empty hostname bypasses the
admission *check* on issue - the per-host counters are neither read nor
incremented, and the fetch is issued no matter what any counter holds - but
the successful-completion handler still executes the decrement with the
captured empty hostname, writing the counter entry for `""`. -/
theorem emptyHostname_bypasses_admission (getHostname : String → String)
    (cache : ImageryCacheM) (active : String → JNum) (b : TileImageryM)
    (url : String) (hhost : getHostname url = "") (hmiss : cache.get url = none) :
    requestImageryStart getHostname cache active b url
      = ⟨cache.beginAdd url, active, { b with imageUrl := some url }, true⟩ ∧
    (∀ (cache2 : ImageryCacheM) (active2 : String → JNum) (b2 : TileImageryM)
        (img : Nat),
      (requestImageryOnSuccess "" cache2 active2 b2
        (FetchValue.imageResult (some img))).active "" = (active2 "").sub1) := by
  constructor
  · simp [requestImageryStart, hmiss, hhost]
  · intro cache2 active2 b2 img
    simp [requestImageryOnSuccess]

/-- C10 witness: with every counter at 100 the fetch for a URL with empty
hostname is still issued and the counters are untouched by the issue path. -/
theorem emptyHostname_bypasses_admission_witness :
    requestImageryStart (fun _ => "") ImageryCacheM.emptyCache
        (fun _ => JNum.int 100) TileImageryM.fresh "u"
      = ⟨ImageryCacheM.emptyCache.beginAdd "u", fun _ => JNum.int 100,
        { TileImageryM.fresh with imageUrl := some "u" }, true⟩ :=
  (emptyHostname_bypasses_admission (fun _ => "") ImageryCacheM.emptyCache
    (fun _ => JNum.int 100) TileImageryM.fresh "u" rfl rfl).1

end Cesium
